import Mathlib

/-!
Verification of the Oak enclave driver (`src/oak/oak_driver.cc`).

The driver is a single `main` that parses two flags (`--enclave_path`,
`--expressions`), rejects an empty expressions flag, splits the flag on
commas, initialises the Asylo enclave manager, loads the enclave under the
fixed name "oak_enclave" with debug mode true, programs it with a fixed
Lisp script, evaluates each expression in order (printing each output), and
destroys the enclave.  Every failed status check runs `LOG(QFATAL)`, which
aborts the process with a non-zero exit.

We embed the driver shallowly as a pure function from an environment oracle
(the outcome of each external Asylo call) to a trace of observable events
plus a Boolean recording whether the process reached `return 0`.

The spec's re-architected Enclave Lifecycle Controller (registry of named
handles, `load`/`destroy` operations) lives in the Asylo library, outside
`src/`; those operations are modelled from the spec near the end of the
definitions section.
-/

/-- The `asylo::EnclaveInput` envelope as used by the driver: a proto with
two optional extensions, `oak::initialise_input` (carrying `lisp_script`)
and `oak::evaluate_input` (carrying `input_data`).  A field is `some` when
the corresponding extension is set. -/
structure EnclaveInput where
  initialise_input : Option String
  evaluate_input : Option String
deriving DecidableEq, Repr

/-- Observable events of a driver run: boundary-crossing Asylo calls
(`LoadEnclave`, `EnterAndRun`, `DestroyEnclave`), `std::cout` lines, and
`LOG(QFATAL)` lines (which abort the process). -/
inductive DriverEvent where
  | loadEnclave (name : String) (path : String) (debug : Bool)
  | enterAndRun (input : EnclaveInput)
  | destroyEnclave
  | printLine (s : String)
  | fatalLog (msg : String)
deriving DecidableEq, Repr

/-- Outcomes of the external Asylo calls the driver makes: manager
availability, `LoadEnclave` status, the `EnterAndRun` status of the
programming call, the status and output datum of the `i`-th evaluation
`EnterAndRun`, and the `DestroyEnclave` status. -/
structure DriverEnv where
  managerOk : Bool
  loadOk : Bool
  programOk : Bool
  evalOk : Nat → Bool
  evalOut : Nat → String
  destroyOk : Bool

/-- `absl::StrSplit(s, ',')` on the underlying character list: split at
every delimiter occurrence; the empty list yields one empty piece. -/
def splitChars (sep : Char) : List Char → List (List Char)
  | [] => [[]]
  | c :: rest =>
    let r := splitChars sep rest
    if c = sep then [] :: r
    else
      match r with
      | [] => [[c]]
      | g :: gs => (c :: g) :: gs

/-- `absl::StrSplit(s, sep)` for a character delimiter, as a `String`
function. -/
def strSplit (s : String) (sep : Char) : List String :=
  (splitChars sep s.data).map (fun cs => String.mk cs)

/-- The hardcoded Lisp script installed by the programming step
(`oak_driver.cc` lines 67-69). -/
def fibScript : String :=
  "(define fib (lambda (n) (if (<= n 2) 1 (+ (fib (- n 1)) (fib (- n 2))))))"

/-- The QFATAL message for an empty `--expressions` flag
(`oak_driver.cc` lines 40-41). -/
def cfgMsg : String :=
  "Must supply a non-empty list of expressions with --expressions"

/-- The expression loop (`oak_driver.cc` lines 79-92): for each expression,
build an `EnclaveInput` with only the `evaluate_input` extension set, call
`EnterAndRun`; on failure QFATAL (abort), on success print the output datum
and continue.  `i` is the absolute index of the next evaluation call. -/
def evalLoop (env : DriverEnv) : List String → Nat → List DriverEvent × Bool
  | [], _ => ([], true)
  | e :: rest, i =>
    let ev := DriverEvent.enterAndRun (EnclaveInput.mk none (some e))
    if env.evalOk i then
      let r := evalLoop env rest (i + 1)
      (ev :: DriverEvent.printLine ("Message from enclave: " ++ env.evalOut i) :: r.1, r.2)
    else
      ([ev, DriverEvent.fatalLog "EnterAndRun failed"], false)

/-- The driver `main` (`oak_driver.cc`): validate the expressions flag,
split it on commas, obtain the enclave manager, load the enclave
("oak_enclave", debug=true), program it with `fibScript`, run the
evaluation loop, destroy the enclave.  Returns the event trace and `true`
iff the process reached `return 0` (a `false` exit is a QFATAL abort). -/
def runDriver (env : DriverEnv) (path flag : String) : List DriverEvent × Bool :=
  if flag = "" then
    ([DriverEvent.fatalLog cfgMsg], false)
  else
    let expressions := strSplit flag ','
    if env.managerOk then
      let pre := [DriverEvent.printLine ("Loading " ++ path),
                  DriverEvent.loadEnclave "oak_enclave" path true]
      if env.loadOk then
        let progEv := DriverEvent.enterAndRun (EnclaveInput.mk (some fibScript) none)
        if env.programOk then
          let r := evalLoop env expressions 0
          if r.2 then
            if env.destroyOk then
              (pre ++ [progEv] ++ r.1 ++ [DriverEvent.destroyEnclave], true)
            else
              (pre ++ [progEv] ++ r.1 ++
                 [DriverEvent.destroyEnclave, DriverEvent.fatalLog "Destroy failed"], false)
          else
            (pre ++ [progEv] ++ r.1, false)
        else
          (pre ++ [progEv, DriverEvent.fatalLog "EnterAndRun failed"], false)
      else
        (pre ++ [DriverEvent.fatalLog "Load failed"], false)
    else
      ([DriverEvent.fatalLog "EnclaveManager unavailable"], false)

/-- Is the event a controller / boundary-crossing call? -/
def isControllerCall : DriverEvent → Bool
  | DriverEvent.loadEnclave _ _ _ => true
  | DriverEvent.enterAndRun _ => true
  | DriverEvent.destroyEnclave => true
  | _ => false

/-- Is the event a `LoadEnclave` call? -/
def isLoadCall : DriverEvent → Bool
  | DriverEvent.loadEnclave _ _ _ => true
  | _ => false

/-- Is the event a programming call (an `EnterAndRun` whose envelope sets
the `initialise_input` extension)? -/
def isProgramCall : DriverEvent → Bool
  | DriverEvent.enterAndRun i => i.initialise_input.isSome
  | _ => false

/-- Is the event an evaluation call (an `EnterAndRun` whose envelope sets
the `evaluate_input` extension)? -/
def isEvalCall : DriverEvent → Bool
  | DriverEvent.enterAndRun i => i.evaluate_input.isSome
  | _ => false

/-- Is the event a `DestroyEnclave` call? -/
def isDestroyCall : DriverEvent → Bool
  | DriverEvent.destroyEnclave => true
  | _ => false

/-- Is the event a fatal (QFATAL) log? -/
def isFatalEvent : DriverEvent → Bool
  | DriverEvent.fatalLog _ => true
  | _ => false

/-- Is the event the config-error QFATAL for an empty expressions flag? -/
def isConfigFatal : DriverEvent → Bool
  | DriverEvent.fatalLog m => m == cfgMsg
  | _ => false

/-- The input datum of an evaluation call, if the event is one. -/
def evalDatum : DriverEvent → Option String
  | DriverEvent.enterAndRun i => i.evaluate_input
  | _ => none

/-- The input data of the evaluation calls of a trace, in order. -/
def evalInputs (tr : List DriverEvent) : List String :=
  tr.filterMap evalDatum

/-- The content of a `printLine` event, if the event is one. -/
def printedOf : DriverEvent → Option String
  | DriverEvent.printLine s => some s
  | _ => none

/-- The `std::cout` lines of a trace, in order. -/
def printedLines (tr : List DriverEvent) : List String :=
  tr.filterMap printedOf

/-- Number of evaluation calls in a trace. -/
def countEvalCalls (tr : List DriverEvent) : Nat :=
  (tr.filter isEvalCall).length

/-- The last event of a trace, if any. -/
def lastEvent : List DriverEvent → Option DriverEvent
  | [] => none
  | [e] => some e
  | _ :: e :: rest => lastEvent (e :: rest)

/-- Recogniser for the controller-call suffix `evaluate* destroy?`:
evaluation calls followed by at most one final destroy call. -/
def tailCalls : List DriverEvent → Bool
  | [] => true
  | e :: rest => (isEvalCall e && tailCalls rest) || (isDestroyCall e && rest.isEmpty)

/-- Recogniser for the controller-call suffix `program evaluate* destroy?`
(empty allowed): at most one programming call, first. -/
def midCalls : List DriverEvent → Bool
  | [] => true
  | e :: rest => isProgramCall e && tailCalls rest

/-- Recogniser for the legal controller-call order
`load? (program evaluate* destroy?)?`: a load call first, then at most one
programming call, then evaluation calls, then at most one destroy call. -/
def callsOrdered : List DriverEvent → Bool
  | [] => true
  | e :: rest => isLoadCall e && midCalls rest

/-- Exactly one of the two input extensions is active on an `EnterAndRun`
envelope (other events vacuously pass). -/
def envelopeOneActive : DriverEvent → Bool
  | DriverEvent.enterAndRun i =>
      (i.initialise_input.isSome && i.evaluate_input.isNone) ||
      (i.initialise_input.isNone && i.evaluate_input.isSome)
  | _ => true

/-- Every load call uses the fixed name "oak_enclave" and debug mode true,
and every programming call installs exactly `fibScript`. -/
def fixedConfigEv : DriverEvent → Bool
  | DriverEvent.loadEnclave n _ d => n == "oak_enclave" && d
  | DriverEvent.enterAndRun i =>
      match i.initialise_input with
      | some s => s == fibScript
      | none => true
  | _ => true

/-- The expected printed outputs of `n` successful evaluations starting at
absolute index `i`. -/
def expectedMessages (env : DriverEnv) (i : Nat) : Nat → List String
  | 0 => []
  | n + 1 =>
    ("Message from enclave: " ++ env.evalOut i) :: expectedMessages env (i + 1) n

/-- Lifecycle states of an enclave handle (spec section 4.2). -/
inductive HState where
  | Unloaded
  | Loaded
  | Programmed
  | Destroyed
deriving DecidableEq, Repr

/-- The spec's error taxonomy for controller operations (spec section 7). -/
inductive LifecycleError where
  | LoadFailed
  | ProgramFailed
  | InvalidState
  | DestroyFailed
deriving DecidableEq, Repr

/-- A handle state is live when it is Loaded or Programmed (not yet
Destroyed, not Unloaded). -/
def isLive : HState → Bool
  | HState.Loaded => true
  | HState.Programmed => true
  | _ => false

/-- Modelled from the spec: the controller's `destroy(handle)` operation
(spec section 4.2), whose implementation (Asylo's `DestroyEnclave`) is not
under `src/`.  Precondition: the handle is not Unloaded or already
Destroyed.  It performs the teardown call and, regardless of the call's
outcome, marks the handle Destroyed locally; a failed teardown surfaces
`DestroyFailed` alongside the already-updated local state. -/
def destroyOp (st : HState) (teardownOk : Bool) : HState × Option LifecycleError :=
  if st = HState.Unloaded ∨ st = HState.Destroyed then
    (st, some LifecycleError.InvalidState)
  else
    (HState.Destroyed, if teardownOk then none else some LifecycleError.DestroyFailed)

/-- Does the registry hold a live handle under `name`? -/
def hasLiveNamed (reg : List (String × HState)) (name : String) : Bool :=
  reg.any (fun p => p.1 == name && isLive p.2)

/-- Modelled from the spec: the controller's
`load(name, contextImagePath, debugMode)` operation (spec section 4.2),
whose implementation (Asylo's `EnclaveManager::LoadEnclave`) is not under
`src/`.  If a live handle is already registered under `name`, the call
fails and the registry is unchanged; otherwise it asks the isolation
subsystem to instantiate the context (`instOk` is that call's outcome) and
on success registers a new handle in state Loaded. -/
def loadOp (reg : List (String × HState)) (name contextImagePath : String)
    (debugMode instOk : Bool) : List (String × HState) × Option LifecycleError :=
  if hasLiveNamed reg name then
    (reg, some LifecycleError.LoadFailed)
  else if instOk then
    ((name, HState.Loaded) :: reg, none)
  else
    (reg, some LifecycleError.LoadFailed)

/-- At most one live handle per name in the registry. -/
def noDupLive : List (String × HState) → Bool
  | [] => true
  | p :: rest => (!(isLive p.2) || !(hasLiveNamed rest p.1)) && noDupLive rest

/-- An environment in which every external call succeeds. -/
def envAllOk : DriverEnv :=
  ⟨true, true, true, fun _ => true, fun _ => "out", true⟩

/-- An environment in which the evaluation call at index 1 fails and every
other call succeeds. -/
def envEvalFail : DriverEnv :=
  ⟨true, true, true, fun j => decide (j < 1), fun _ => "out", true⟩

/-- An environment in which the programming call fails and every other
call succeeds. -/
def envProgFail : DriverEnv :=
  ⟨true, true, false, fun _ => true, fun _ => "out", true⟩

example : strSplit "a,b,c" ',' = ["a", "b", "c"] := by decide
example : strSplit "," ',' = ["", ""] := by decide
example : strSplit "" ',' = [""] := by decide

/-! ### Shared lemmas about the evaluation loop -/

lemma evalLoop_all (env : DriverEnv) (P : DriverEvent → Bool)
    (h1 : ∀ s, P (DriverEvent.enterAndRun (EnclaveInput.mk none (some s))) = true)
    (h2 : ∀ s, P (DriverEvent.printLine s) = true)
    (h3 : P (DriverEvent.fatalLog "EnterAndRun failed") = true) :
    ∀ (es : List String) (i : Nat), ((evalLoop env es i).1.all P) = true := by
  intro es
  induction es with
  | nil => intro i; simp [evalLoop]
  | cons e rest ih =>
    intro i
    by_cases h : env.evalOk i = true
    · simp [evalLoop, h, h1, h2, ih (i + 1)]
    · simp at h
      simp [evalLoop, h, h1, h3]

lemma evalLoop_noDestroy (env : DriverEnv) (es : List String) (i : Nat) :
    ((evalLoop env es i).1.any isDestroyCall) = false := by
  have h := evalLoop_all env (fun e => ! isDestroyCall e)
    (by intro s; rfl) (by intro s; rfl) (by rfl) es i
  simpa [List.all_eq_not_any_not] using h

lemma evalLoop_ctrl_evals (env : DriverEnv) :
    ∀ (es : List String) (i : Nat),
      (((evalLoop env es i).1.filter isControllerCall).all isEvalCall) = true := by
  intro es
  induction es with
  | nil => intro i; simp [evalLoop]
  | cons e rest ih =>
    intro i
    by_cases h : env.evalOk i = true
    · simp [evalLoop, h, isControllerCall, isEvalCall, ih (i + 1)]
    · simp at h
      simp [evalLoop, h, isControllerCall, isEvalCall]

lemma tailCalls_of_evals :
    ∀ l : List DriverEvent, (l.all isEvalCall) = true → tailCalls l = true := by
  intro l
  induction l with
  | nil => intro _; rfl
  | cons e rest ih =>
    intro h
    simp only [List.all_cons, Bool.and_eq_true] at h
    simp [tailCalls, h.1, ih h.2]

lemma tailCalls_evals_destroy :
    ∀ l : List DriverEvent, (l.all isEvalCall) = true →
      tailCalls (l ++ [DriverEvent.destroyEnclave]) = true := by
  intro l
  induction l with
  | nil => intro _; rfl
  | cons e rest ih =>
    intro h
    simp only [List.all_cons, Bool.and_eq_true] at h
    simp [tailCalls, h.1, ih h.2]

lemma evalLoop_take (env : DriverEnv) :
    ∀ (es : List String) (i : Nat),
      ∃ n, evalInputs (evalLoop env es i).1 = es.take n := by
  intro es
  induction es with
  | nil => intro i; exact ⟨0, by simp [evalLoop, evalInputs]⟩
  | cons e rest ih =>
    intro i
    by_cases h : env.evalOk i = true
    · obtain ⟨n, hn⟩ := ih (i + 1)
      exact ⟨n + 1, by simp [evalLoop, h, evalInputs, evalDatum] at hn ⊢; exact hn⟩
    · simp at h
      exact ⟨1, by simp [evalLoop, h, evalInputs, evalDatum]⟩

lemma lastEvent_cons_ne (x : DriverEvent) (l : List DriverEvent) (h : l ≠ []) :
    lastEvent (x :: l) = lastEvent l := by
  match l with
  | [] => exact absurd rfl h
  | e :: rest => rfl

lemma lastEvent_append (l r : List DriverEvent) (e : DriverEvent)
    (h : lastEvent r = some e) : lastEvent (l ++ r) = some e := by
  induction l with
  | nil => simpa using h
  | cons x l ih =>
    have hr : r ≠ [] := by intro hnil; rw [hnil] at h; exact Option.noConfusion h
    have hne : l ++ r ≠ [] := by
      intro hnil
      rw [List.append_eq_nil] at hnil
      exact hr hnil.2
    rw [List.cons_append, lastEvent_cons_ne x (l ++ r) hne]
    exact ih

lemma evalLoop_fail (env : DriverEnv) :
    ∀ (es : List String) (i k : Nat), k < es.length →
      (∀ j, j < k → env.evalOk (i + j) = true) → env.evalOk (i + k) = false →
      (evalLoop env es i).2 = false ∧
      evalInputs (evalLoop env es i).1 = es.take (k + 1) ∧
      lastEvent (evalLoop env es i).1 = some (DriverEvent.fatalLog "EnterAndRun failed") ∧
      ((evalLoop env es i).1.any isDestroyCall) = false := by
  intro es
  induction es with
  | nil => intro i k hk; exact absurd hk (by simp)
  | cons e rest ih =>
    intro i k hk hpre hfail
    match k with
    | 0 =>
      simp only [Nat.add_zero] at hfail
      refine ⟨?_, ?_, ?_, ?_⟩ <;>
        simp [evalLoop, hfail, evalInputs, evalDatum, lastEvent, isDestroyCall]
    | k' + 1 =>
      have h0 : env.evalOk i = true := by
        have := hpre 0 (Nat.succ_pos k')
        simpa using this
      have hpre' : ∀ j, j < k' → env.evalOk (i + 1 + j) = true := by
        intro j hj
        have := hpre (j + 1) (Nat.succ_lt_succ hj)
        simpa [Nat.add_comm, Nat.add_assoc, Nat.add_left_comm] using this
      have hfail' : env.evalOk (i + 1 + k') = false := by
        simpa [Nat.add_comm, Nat.add_assoc, Nat.add_left_comm] using hfail
      have hk' : k' < rest.length := Nat.lt_of_succ_lt_succ hk
      obtain ⟨ih1, ih2, ih3, ih4⟩ := ih (i + 1) k' hk' hpre' hfail'
      have hne : (evalLoop env rest (i + 1)).1 ≠ [] := by
        intro hnil
        rw [hnil] at ih3
        exact Option.noConfusion ih3
      refine ⟨?_, ?_, ?_, ?_⟩
      · simp [evalLoop, h0, ih1]
      · simp [evalLoop, h0, evalInputs, evalDatum]
        simpa [evalInputs] using ih2
      · simp only [evalLoop, h0, if_pos]
        rw [lastEvent_cons_ne _ _ (by simp),
            lastEvent_cons_ne _ _ hne]
        exact ih3
      · simp [evalLoop, h0, isDestroyCall, ih4]

lemma evalLoop_ok (env : DriverEnv) :
    ∀ (es : List String) (i : Nat),
      (∀ j, j < es.length → env.evalOk (i + j) = true) →
      (evalLoop env es i).2 = true ∧
      evalInputs (evalLoop env es i).1 = es ∧
      printedLines (evalLoop env es i).1 = expectedMessages env i es.length := by
  intro es
  induction es with
  | nil => intro i _; exact ⟨rfl, rfl, rfl⟩
  | cons e rest ih =>
    intro i hok
    have h0 : env.evalOk i = true := by simpa using hok 0 (Nat.succ_pos _)
    have hok' : ∀ j, j < rest.length → env.evalOk (i + 1 + j) = true := by
      intro j hj
      have := hok (j + 1) (Nat.succ_lt_succ hj)
      simpa [Nat.add_comm, Nat.add_assoc, Nat.add_left_comm] using this
    obtain ⟨ih1, ih2, ih3⟩ := ih (i + 1) hok'
    refine ⟨by simp [evalLoop, h0, ih1], ?_, ?_⟩
    · simp [evalLoop, h0, evalInputs, evalDatum]
      simpa [evalInputs] using ih2
    · simp [evalLoop, h0, printedLines, printedOf, expectedMessages]
      simpa [printedLines] using ih3

lemma evalLoop_count_pos (env : DriverEnv) (e : String) (rest : List String) (i : Nat) :
    1 ≤ countEvalCalls (evalLoop env (e :: rest) i).1 := by
  by_cases h : env.evalOk i = true
  · simp [evalLoop, h, countEvalCalls, isEvalCall]
  · simp at h
    simp [evalLoop, h, countEvalCalls, isEvalCall]

lemma evalLoop_false_last (env : DriverEnv) :
    ∀ (es : List String) (i : Nat), (evalLoop env es i).2 = false →
      lastEvent (evalLoop env es i).1 = some (DriverEvent.fatalLog "EnterAndRun failed") := by
  intro es
  induction es with
  | nil => intro i h; exact absurd h (by simp [evalLoop])
  | cons e rest ih =>
    intro i h
    by_cases hok : env.evalOk i = true
    · have h2 : (evalLoop env rest (i + 1)).2 = false := by
        simpa [evalLoop, hok] using h
      have hlast := ih (i + 1) h2
      have hne : (evalLoop env rest (i + 1)).1 ≠ [] := by
        intro hnil; rw [hnil] at hlast; exact Option.noConfusion hlast
      simp only [evalLoop, hok, if_pos]
      rw [lastEvent_cons_ne _ _ (by simp), lastEvent_cons_ne _ _ hne]
      exact hlast
    · simp at hok
      simp [evalLoop, hok, lastEvent]

lemma countEval_eq_inputs_length : ∀ tr : List DriverEvent,
    countEvalCalls tr = (evalInputs tr).length := by
  intro tr
  induction tr with
  | nil => rfl
  | cons e rest ih =>
    cases e with
    | enterAndRun i =>
      cases hi : i.evaluate_input with
      | none =>
        simpa [countEvalCalls, evalInputs, isEvalCall, evalDatum, hi] using ih
      | some d =>
        simp only [countEvalCalls, evalInputs, isEvalCall, evalDatum, hi,
          List.filter_cons, List.filterMap_cons, Option.isSome_some, List.length_cons,
          if_true] at ih ⊢
        omega
    | loadEnclave n p d =>
      simpa [countEvalCalls, evalInputs, isEvalCall, evalDatum] using ih
    | destroyEnclave =>
      simpa [countEvalCalls, evalInputs, isEvalCall, evalDatum] using ih
    | printLine s =>
      simpa [countEvalCalls, evalInputs, isEvalCall, evalDatum] using ih
    | fatalLog m =>
      simpa [countEvalCalls, evalInputs, isEvalCall, evalDatum] using ih

lemma splitChars_length_pos (sep : Char) : ∀ l : List Char, 1 ≤ (splitChars sep l).length := by
  intro l
  induction l with
  | nil => simp [splitChars]
  | cons c rest ih =>
    by_cases h : c = sep
    · simp [splitChars, h]
    · simp only [splitChars, if_neg h]
      cases hr : splitChars sep rest with
      | nil => simp
      | cons g gs => simp

/-! ### Shared lemmas about whole driver runs -/

lemma runDriver_all (env : DriverEnv) (path flag : String) (P : DriverEvent → Bool)
    (hcfg : flag = "" → P (DriverEvent.fatalLog cfgMsg) = true)
    (hmgr : P (DriverEvent.fatalLog "EnclaveManager unavailable") = true)
    (hldf : P (DriverEvent.fatalLog "Load failed") = true)
    (henf : P (DriverEvent.fatalLog "EnterAndRun failed") = true)
    (hdsf : P (DriverEvent.fatalLog "Destroy failed") = true)
    (hpr : ∀ s, P (DriverEvent.printLine s) = true)
    (hload : P (DriverEvent.loadEnclave "oak_enclave" path true) = true)
    (hprog : P (DriverEvent.enterAndRun (EnclaveInput.mk (some fibScript) none)) = true)
    (heval : ∀ s, P (DriverEvent.enterAndRun (EnclaveInput.mk none (some s))) = true)
    (hdes : P DriverEvent.destroyEnclave = true) :
    ((runDriver env path flag).1.all P) = true := by
  by_cases hF : flag = ""
  · simp [runDriver, hF, hcfg hF]
  · cases hM : env.managerOk with
    | false => simp [runDriver, hF, hM, hmgr]
    | true =>
      cases hL : env.loadOk with
      | false => simp [runDriver, hF, hM, hL, hpr, hload, hldf]
      | true =>
        cases hP : env.programOk with
        | false => simp [runDriver, hF, hM, hL, hP, hpr, hload, hprog, henf]
        | true =>
          have hloop := evalLoop_all env P heval hpr henf (strSplit flag ',') 0
          cases hR : (evalLoop env (strSplit flag ',') 0).2 with
          | false => simp [runDriver, hF, hM, hL, hP, hR, hpr, hload, hprog, hloop]
          | true =>
            cases hD : env.destroyOk with
            | false =>
              simp [runDriver, hF, hM, hL, hP, hR, hD, hpr, hload, hprog, hloop, hdes, hdsf]
            | true =>
              simp [runDriver, hF, hM, hL, hP, hR, hD, hpr, hload, hprog, hloop, hdes]

/-! ### Claim theorems -/

/-- C1: if the expressions flag is empty, the driver emits only the
`ConfigError` QFATAL and aborts (exit is not 0); its trace contains no
controller call at all (no load, program, evaluate or destroy). -/
theorem empty_expressions_no_controller_calls (env : DriverEnv) (path : String) :
    runDriver env path "" = ([DriverEvent.fatalLog cfgMsg], false) ∧
    ((runDriver env path "").1.filter isControllerCall) = [] := by
  refine ⟨by simp [runDriver], ?_⟩
  simp [runDriver, isControllerCall]

/-- C5: every `EnterAndRun` envelope the driver sends across the boundary
has exactly one active payload extension: the programming call sets only
`initialise_input` and each evaluation call sets only `evaluate_input`
(the destroy call carries only the payload-free `EnclaveFinal` signal, by
the shape of `DriverEvent.destroyEnclave`). -/
theorem envelope_single_active_payload (env : DriverEnv) (path flag : String) :
    ((runDriver env path flag).1.all envelopeOneActive) = true := by
  exact runDriver_all env path flag envelopeOneActive
    (fun _ => rfl) rfl rfl rfl rfl (fun _ => rfl) rfl rfl (fun _ => rfl) rfl

/-- C2: in every run, the controller calls of the trace match the order
`load (program evaluate* destroy?)?` with the programming call issued at
most once; an evaluation call can only appear when the manager, load and
programming calls all succeeded; and the evaluation calls follow the
expression list in program order (their input data form a take-closed
part of the split flag). -/
theorem controller_calls_ordered (env : DriverEnv) (path flag : String) :
    callsOrdered ((runDriver env path flag).1.filter isControllerCall) = true ∧
    (((runDriver env path flag).1.any isEvalCall) &&
       !(env.managerOk && env.loadOk && env.programOk)) = false ∧
    ∃ n, evalInputs (runDriver env path flag).1 = (strSplit flag ',').take n := by
  by_cases hF : flag = ""
  · refine ⟨?_, ?_, ⟨0, ?_⟩⟩ <;>
      simp [runDriver, hF, isControllerCall, callsOrdered, isEvalCall, evalInputs, evalDatum]
  · cases hM : env.managerOk with
    | false =>
      refine ⟨?_, ?_, ⟨0, ?_⟩⟩ <;>
        simp [runDriver, hF, hM, isControllerCall, callsOrdered, isEvalCall,
          evalInputs, evalDatum]
    | true =>
      cases hL : env.loadOk with
      | false =>
        refine ⟨?_, ?_, ⟨0, ?_⟩⟩ <;>
          simp [runDriver, hF, hM, hL, isControllerCall, callsOrdered, midCalls,
            isLoadCall, isEvalCall, evalInputs, evalDatum]
      | true =>
        cases hP : env.programOk with
        | false =>
          refine ⟨?_, ?_, ⟨0, ?_⟩⟩ <;>
            simp [runDriver, hF, hM, hL, hP, isControllerCall, callsOrdered, midCalls,
              tailCalls, isLoadCall, isProgramCall, isEvalCall, evalInputs, evalDatum]
        | true =>
          have hevs := evalLoop_ctrl_evals env (strSplit flag ',') 0
          obtain ⟨n, hn⟩ := evalLoop_take env (strSplit flag ',') 0
          cases hR : (evalLoop env (strSplit flag ',') 0).2 with
          | false =>
            refine ⟨?_, ?_, ⟨n, ?_⟩⟩
            · simp [runDriver, hF, hM, hL, hP, hR, List.filter_append, isControllerCall,
                callsOrdered, midCalls, isLoadCall, isProgramCall]
              exact tailCalls_of_evals _ hevs
            · simp [hM, hL, hP]
            · simp [runDriver, hF, hM, hL, hP, hR, evalInputs, List.filterMap_append,
                evalDatum]
              simpa [evalInputs] using hn
          | true =>
            cases hD : env.destroyOk with
            | false =>
              refine ⟨?_, ?_, ⟨n, ?_⟩⟩
              · simp [runDriver, hF, hM, hL, hP, hR, hD, List.filter_append,
                  isControllerCall, callsOrdered, midCalls, isLoadCall, isProgramCall]
                exact tailCalls_evals_destroy _ hevs
              · simp [hM, hL, hP]
              · simp [runDriver, hF, hM, hL, hP, hR, hD, evalInputs,
                  List.filterMap_append, evalDatum]
                simpa [evalInputs] using hn
            | true =>
              refine ⟨?_, ?_, ⟨n, ?_⟩⟩
              · simp [runDriver, hF, hM, hL, hP, hR, hD, List.filter_append,
                  isControllerCall, callsOrdered, midCalls, isLoadCall, isProgramCall]
                exact tailCalls_evals_destroy _ hevs
              · simp [hM, hL, hP]
              · simp [runDriver, hF, hM, hL, hP, hR, hD, evalInputs,
                  List.filterMap_append, evalDatum]
                simpa [evalInputs] using hn

/-- C9: in every run every load call uses the fixed name "oak_enclave" and
debug mode true, and every programming call installs exactly the hardcoded
`fibScript`; moreover, whenever the flag is non-empty and the manager is
available, a load call is issued — the name, the debug flag and the script
do not depend on any flag or argument. -/
theorem fixed_enclave_name_debug_script (env : DriverEnv) (path flag : String) :
    ((runDriver env path flag).1.all fixedConfigEv) = true ∧
    (flag ≠ "" → env.managerOk = true →
      ((runDriver env path flag).1.any isLoadCall) = true) := by
  constructor
  · exact runDriver_all env path flag fixedConfigEv
      (fun _ => rfl) rfl rfl rfl rfl (fun _ => rfl) rfl rfl (fun _ => rfl) rfl
  · intro hF hM
    cases hL : env.loadOk with
    | false => simp [runDriver, hF, hM, hL, isLoadCall]
    | true =>
      cases hP : env.programOk with
      | false => simp [runDriver, hF, hM, hL, hP, isLoadCall]
      | true =>
        cases hR : (evalLoop env (strSplit flag ',') 0).2 with
        | false => simp [runDriver, hF, hM, hL, hP, hR, List.any_append, isLoadCall]
        | true =>
          cases hD : env.destroyOk with
          | false => simp [runDriver, hF, hM, hL, hP, hR, hD, List.any_append, isLoadCall]
          | true => simp [runDriver, hF, hM, hL, hP, hR, hD, List.any_append, isLoadCall]

/-- Witness for C9 at a concrete run. -/
theorem fixed_enclave_name_debug_script_witness :
    ((runDriver envAllOk "img" "a").1.all fixedConfigEv) = true ∧
    ((runDriver envAllOk "img" "a").1.any isLoadCall) = true :=
  ⟨(fixed_enclave_name_debug_script envAllOk "img" "a").1,
   (fixed_enclave_name_debug_script envAllOk "img" "a").2 (by decide) rfl⟩

/-- C3: every aborting run ends in a QFATAL log line (first error is
fatal); in particular, when the evaluation call at index `k` is the first
to fail mid-loop, the run exits non-zero, exactly the expressions up to
and including the failing one are evaluated (no retry, no
skip-and-continue), the run ends at the `EnterAndRun failed` QFATAL, and
no destroy call is ever issued. -/
theorem first_error_is_fatal :
    (∀ (env : DriverEnv) (path flag : String), (runDriver env path flag).2 = false →
       ∃ m, lastEvent (runDriver env path flag).1 = some (DriverEvent.fatalLog m)) ∧
    (∀ (env : DriverEnv) (path flag : String) (k : Nat),
       flag ≠ "" → env.managerOk = true → env.loadOk = true → env.programOk = true →
       (∀ j, j < k → env.evalOk j = true) → env.evalOk k = false →
       k < (strSplit flag ',').length →
       (runDriver env path flag).2 = false ∧
       evalInputs (runDriver env path flag).1 = (strSplit flag ',').take (k + 1) ∧
       lastEvent (runDriver env path flag).1 =
         some (DriverEvent.fatalLog "EnterAndRun failed") ∧
       ((runDriver env path flag).1.any isDestroyCall) = false) := by
  constructor
  · intro env path flag hfalse
    by_cases hF : flag = ""
    · exact ⟨cfgMsg, by simp [runDriver, hF, lastEvent]⟩
    · cases hM : env.managerOk with
      | false =>
        exact ⟨"EnclaveManager unavailable", by simp [runDriver, hF, hM, lastEvent]⟩
      | true =>
        cases hL : env.loadOk with
        | false => exact ⟨"Load failed", by simp [runDriver, hF, hM, hL, lastEvent]⟩
        | true =>
          cases hP : env.programOk with
          | false =>
            exact ⟨"EnterAndRun failed", by simp [runDriver, hF, hM, hL, hP, lastEvent]⟩
          | true =>
            cases hR : (evalLoop env (strSplit flag ',') 0).2 with
            | false =>
              have hlast := evalLoop_false_last env (strSplit flag ',') 0 hR
              have hne : (evalLoop env (strSplit flag ',') 0).1 ≠ [] := by
                intro hnil; rw [hnil] at hlast; exact Option.noConfusion hlast
              refine ⟨"EnterAndRun failed", ?_⟩
              simp only [runDriver, hF, hM, hL, hP, hR, if_neg, if_pos, if_false,
                ite_false, List.cons_append, List.nil_append, List.append_assoc]
              simp [lastEvent]
              rw [lastEvent_cons_ne _ _ hne]
              exact hlast
            | true =>
              cases hD : env.destroyOk with
              | false =>
                refine ⟨"Destroy failed", ?_⟩
                simp [runDriver, hF, hM, hL, hP, hR, hD, lastEvent]
                rw [lastEvent_cons_ne _ _ (by simp)]
                exact lastEvent_append _ _ _ rfl
              | true =>
                exfalso
                simp [runDriver, hF, hM, hL, hP, hR, hD] at hfalse
  · intro env path flag k hF hM hL hP hpre hfail hk
    have hpre0 : ∀ j, j < k → env.evalOk (0 + j) = true := by
      intro j hj; simpa using hpre j hj
    have hfail0 : env.evalOk (0 + k) = false := by simpa using hfail
    obtain ⟨e1, e2, e3, e4⟩ := evalLoop_fail env (strSplit flag ',') 0 k hk hpre0 hfail0
    have hne : (evalLoop env (strSplit flag ',') 0).1 ≠ [] := by
      intro hnil; rw [hnil] at e3; exact Option.noConfusion e3
    refine ⟨?_, ?_, ?_, ?_⟩
    · simp [runDriver, hF, hM, hL, hP, e1]
    · simp [runDriver, hF, hM, hL, hP, e1, evalInputs, evalDatum]
      simpa [evalInputs] using e2
    · simp [runDriver, hF, hM, hL, hP, e1, lastEvent]
      rw [lastEvent_cons_ne _ _ hne]
      exact e3
    · simp [runDriver, hF, hM, hL, hP, e1, isDestroyCall]
      simpa using e4

/-- Witness for C3: index 1 is the first evaluation failure on the
expression list "a,b,c". -/
theorem first_error_is_fatal_witness :
    (runDriver envEvalFail "p" "a,b,c").2 = false ∧
    evalInputs (runDriver envEvalFail "p" "a,b,c").1 = (strSplit "a,b,c" ',').take (1 + 1) ∧
    lastEvent (runDriver envEvalFail "p" "a,b,c").1 =
      some (DriverEvent.fatalLog "EnterAndRun failed") ∧
    ((runDriver envEvalFail "p" "a,b,c").1.any isDestroyCall) = false :=
  first_error_is_fatal.2 envEvalFail "p" "a,b,c" 1 (by decide) rfl rfl rfl
    (fun j hj => decide_eq_true hj) rfl (by decide)

/-- C4: the expressions are obtained by splitting the flag on commas, and
when every call succeeds the driver issues exactly one evaluation call per
expression, in list order, and prints each evaluation's output datum. -/
theorem evaluates_each_expression_in_order (env : DriverEnv) (path flag : String)
    (hF : flag ≠ "") (hM : env.managerOk = true) (hL : env.loadOk = true)
    (hP : env.programOk = true)
    (hok : ∀ j, j < (strSplit flag ',').length → env.evalOk j = true) :
    evalInputs (runDriver env path flag).1 = strSplit flag ',' ∧
    countEvalCalls (runDriver env path flag).1 = (strSplit flag ',').length ∧
    printedLines (runDriver env path flag).1 =
      ("Loading " ++ path) :: expectedMessages env 0 (strSplit flag ',').length := by
  have hok0 : ∀ j, j < (strSplit flag ',').length → env.evalOk (0 + j) = true := by
    intro j hj; simpa using hok j hj
  obtain ⟨h1, h2, h3⟩ := evalLoop_ok env (strSplit flag ',') 0 hok0
  have hcnt : countEvalCalls (runDriver env path flag).1 =
      (evalInputs (runDriver env path flag).1).length :=
    countEval_eq_inputs_length _
  cases hD : env.destroyOk with
  | false =>
    refine ⟨?_, ?_, ?_⟩
    · simp [runDriver, hF, hM, hL, hP, h1, hD, evalInputs, evalDatum]
      simpa [evalInputs] using h2
    · rw [hcnt]
      simp [runDriver, hF, hM, hL, hP, h1, hD, evalInputs, evalDatum]
      have := congrArg List.length h2
      simpa [evalInputs] using this
    · simp [runDriver, hF, hM, hL, hP, h1, hD, printedLines, printedOf]
      simpa [printedLines] using h3
  | true =>
    refine ⟨?_, ?_, ?_⟩
    · simp [runDriver, hF, hM, hL, hP, h1, hD, evalInputs, evalDatum]
      simpa [evalInputs] using h2
    · rw [hcnt]
      simp [runDriver, hF, hM, hL, hP, h1, hD, evalInputs, evalDatum]
      have := congrArg List.length h2
      simpa [evalInputs] using this
    · simp [runDriver, hF, hM, hL, hP, h1, hD, printedLines, printedOf]
      simpa [printedLines] using h3

/-- Witness for C4 at a concrete all-success run. -/
theorem evaluates_each_expression_in_order_witness :
    evalInputs (runDriver envAllOk "img" "x,y").1 = strSplit "x,y" ',' ∧
    countEvalCalls (runDriver envAllOk "img" "x,y").1 = (strSplit "x,y" ',').length ∧
    printedLines (runDriver envAllOk "img" "x,y").1 =
      ("Loading " ++ "img") :: expectedMessages envAllOk 0 (strSplit "x,y" ',').length :=
  evaluates_each_expression_in_order envAllOk "img" "x,y" (by decide) rfl rfl rfl
    (fun _ _ => rfl)

/-- Counterexample for C6: on a run whose programming call fails, the
driver QFATALs at once — a programming call is issued yet no destroy call
ever is, and the run ends non-zero with the handle never destroyed,
contradicting the claim that the caller proceeds to destroy the handle
before the run ends. -/
theorem program_failure_skips_destroy_cex :
    ((runDriver envProgFail "img" "x").1.any isProgramCall) = true ∧
    ((runDriver envProgFail "img" "x").1.any isDestroyCall) = false ∧
    (runDriver envProgFail "img" "x").2 = false := by
  refine ⟨?_, ?_, ?_⟩ <;> rfl

/-- C6 (amended): when the programming call reports a failure, the process
aborts fatally at once with a non-zero exit; no evaluate call and no
destroy call is ever issued — the handle is leaked, never destroyed. -/
theorem program_failure_aborts_without_destroy (env : DriverEnv) (path flag : String)
    (hF : flag ≠ "") (hM : env.managerOk = true) (hL : env.loadOk = true)
    (hP : env.programOk = false) :
    (runDriver env path flag).2 = false ∧
    ((runDriver env path flag).1.any isDestroyCall) = false ∧
    ((runDriver env path flag).1.any isEvalCall) = false ∧
    lastEvent (runDriver env path flag).1 =
      some (DriverEvent.fatalLog "EnterAndRun failed") := by
  refine ⟨?_, ?_, ?_, ?_⟩ <;>
    simp [runDriver, hF, hM, hL, hP, isDestroyCall, isEvalCall, lastEvent]

/-- Witness for the amended C6 at a concrete run. -/
theorem program_failure_aborts_without_destroy_witness :
    (runDriver envProgFail "img" "y").2 = false ∧
    ((runDriver envProgFail "img" "y").1.any isDestroyCall) = false ∧
    ((runDriver envProgFail "img" "y").1.any isEvalCall) = false ∧
    lastEvent (runDriver envProgFail "img" "y").1 =
      some (DriverEvent.fatalLog "EnterAndRun failed") :=
  program_failure_aborts_without_destroy envProgFail "img" "y" (by decide) rfl rfl rfl

/-- C7 (modelled from the spec): `destroy` moves a live handle to
Destroyed regardless of the teardown call's outcome, and when teardown
fails it surfaces `DestroyFailed` alongside the already-advanced local
state. -/
theorem destroy_always_marks_destroyed (st : HState) (ok : Bool)
    (h1 : st ≠ HState.Unloaded) (h2 : st ≠ HState.Destroyed) :
    (destroyOp st ok).1 = HState.Destroyed ∧
    (destroyOp st ok).2 = (if ok then none else some LifecycleError.DestroyFailed) ∧
    (ok = false → (destroyOp st ok).2 = some LifecycleError.DestroyFailed) := by
  have hcond : ¬(st = HState.Unloaded ∨ st = HState.Destroyed) := by
    rintro (h | h)
    · exact h1 h
    · exact h2 h
  refine ⟨by simp [destroyOp, hcond], by simp [destroyOp, hcond], ?_⟩
  intro hok
  simp [destroyOp, hcond, hok]

/-- Witness for C7: destroying a Loaded handle whose teardown call fails. -/
theorem destroy_always_marks_destroyed_witness :
    (destroyOp HState.Loaded false).1 = HState.Destroyed ∧
    (destroyOp HState.Loaded false).2 =
      (if false then none else some LifecycleError.DestroyFailed) ∧
    (false = false → (destroyOp HState.Loaded false).2 = some LifecycleError.DestroyFailed) :=
  destroy_always_marks_destroyed HState.Loaded false (by decide) (by decide)

/-- C8 (modelled from the spec): a `load` under a name that already has a
live handle fails and leaves the registry unchanged (the first handle is
not replaced), and `load` preserves the at-most-one-live-handle-per-name
invariant. -/
theorem load_duplicate_name_rejected (reg : List (String × HState))
    (name path : String) (dbg instOk : Bool) :
    (hasLiveNamed reg name = true →
      loadOp reg name path dbg instOk = (reg, some LifecycleError.LoadFailed)) ∧
    (noDupLive reg = true → noDupLive (loadOp reg name path dbg instOk).1 = true) := by
  constructor
  · intro h
    simp [loadOp, h]
  · intro h
    cases hl : hasLiveNamed reg name with
    | true => simp [loadOp, hl, h]
    | false =>
      cases instOk with
      | false => simp [loadOp, hl, h]
      | true => simp [loadOp, hl, noDupLive, isLive, h]

/-- Witness for C8: a second load under "oak_enclave" while the first
handle is Loaded. -/
theorem load_duplicate_name_rejected_witness :
    loadOp [("oak_enclave", HState.Loaded)] "oak_enclave" "img" true true =
      ([("oak_enclave", HState.Loaded)], some LifecycleError.LoadFailed) ∧
    noDupLive (loadOp [("oak_enclave", HState.Loaded)] "oak_enclave" "img" true true).1 = true :=
  ⟨(load_duplicate_name_rejected [("oak_enclave", HState.Loaded)]
      "oak_enclave" "img" true true).1 (by decide),
   (load_duplicate_name_rejected [("oak_enclave", HState.Loaded)]
      "oak_enclave" "img" true true).2 (by decide)⟩

/-- C10: the validation rejects only a wholly empty expressions flag (a
non-empty flag never triggers the `ConfigError` QFATAL); every string
splits into at least one piece, so once validation passes and the run
reaches the loop at least one evaluation call is issued; and the input
"," passes validation and produces evaluation calls whose input datum is
the empty string. -/
theorem nonempty_flag_passes_validation :
    (∀ (env : DriverEnv) (path flag : String), flag ≠ "" →
       ((runDriver env path flag).1.any isConfigFatal) = false) ∧
    (∀ s : String, 1 ≤ (strSplit s ',').length) ∧
    (∀ (env : DriverEnv) (path flag : String), flag ≠ "" → env.managerOk = true →
       env.loadOk = true → env.programOk = true →
       1 ≤ countEvalCalls (runDriver env path flag).1) ∧
    (evalInputs (runDriver envAllOk "img" ",").1 = ["", ""] ∧
     ((runDriver envAllOk "img" ",").1.any isConfigFatal) = false) := by
  have hsplit : ∀ s : String, 1 ≤ (strSplit s ',').length := by
    intro s
    simpa [strSplit] using splitChars_length_pos ',' s.data
  refine ⟨?_, hsplit, ?_, ?_, ?_⟩
  · intro env path flag hF
    have h := runDriver_all env path flag (fun e => ! isConfigFatal e)
      (fun h => absurd h hF) (by decide) (by decide) (by decide) (by decide)
      (fun _ => rfl) rfl rfl (fun _ => rfl) rfl
    simpa [List.all_eq_not_any_not] using h
  · intro env path flag hF hM hL hP
    have h2 := hsplit flag
    cases hs : strSplit flag ',' with
    | nil => rw [hs] at h2; exact absurd h2 (by simp)
    | cons e rest =>
      have hpos := evalLoop_count_pos env e rest 0
      simp only [countEvalCalls] at hpos ⊢
      cases hR : (evalLoop env (e :: rest) 0).2 with
      | false =>
        simp [runDriver, hF, hM, hL, hP, hs, hR, List.filter_append, isEvalCall]
        omega
      | true =>
        cases hD : env.destroyOk with
        | false =>
          simp [runDriver, hF, hM, hL, hP, hs, hR, hD, List.filter_append, isEvalCall]
          omega
        | true =>
          simp [runDriver, hF, hM, hL, hP, hs, hR, hD, List.filter_append, isEvalCall]
          omega
  · rfl
  · rfl

/-- Witness for C10 at the concrete input ",". -/
theorem nonempty_flag_passes_validation_witness :
    ((runDriver envAllOk "img" ",").1.any isConfigFatal) = false ∧
    1 ≤ countEvalCalls (runDriver envAllOk "img" ",").1 :=
  ⟨nonempty_flag_passes_validation.1 envAllOk "img" "," (by decide),
   nonempty_flag_passes_validation.2.2.1 envAllOk "img" "," (by decide) rfl rfl rfl⟩
